import Mathlib

/-!
Verification of the tabular merge engine of `app.py` (Excel merge tool).

The program is a pandas/Streamlit application with two merge modes:

* "雙檔查找合併 (VLOOKUP)": a two-table left join (`pd.merge(..., how='left')`)
  of a primary (left) table with a column-selection of a secondary (right)
  table, plus duplicate-key diagnostics and an unmatched-row table.
* "多檔合併": either vertical concatenation (`pd.concat(..., ignore_index=True)`)
  or a pairwise `reduce(pd.merge)` key join over a list of tables, plus
  duplicate-key diagnostics.

The embedding below models tables as a list of column names together with a
list of rows (each row a list of cell values), cells as a small scalar type,
and each pandas operation used by `app.py` as an executable Lean function.
pandas version-specific behaviour that the embedding relies on is noted at
each definition (in particular: `astype(str)` turns a missing value into the
literal string `"nan"`; `pd.merge` raises `ValueError` when the key columns
of the two frames have incompatible dtypes, numeric versus object; and
`pd.merge` refuses to produce duplicate column labels, raising `MergeError`,
as in pandas >= 1.5).
-/

set_option autoImplicit false

namespace MergerTool

/-- A scalar cell value, as held by a pandas DataFrame after Excel load:
a string, an integer-valued number, a date (datetime64 cell), or a missing
value (`NaN`/`NaT`). -/
inductive Value where
  | vstr (s : String)
  | vnum (n : Int)
  | vdate (y m d : Nat)
  | vnull
deriving DecidableEq, Repr

/-- The dtype of a loaded column, as far as `read_and_clean_sheet` inspects it:
`is_datetime64_any_dtype`, `== 'object'`, or anything else (numeric). -/
inductive Dtype where
  | dtDatetime
  | dtObject
  | dtNumeric
deriving DecidableEq, Repr

/-- A freshly loaded sheet, before cleaning: column names, per-column dtypes,
and rows of cells. -/
structure RawTable where
  names : List String
  dtypes : List Dtype
  rows : List (List Value)
deriving DecidableEq, Repr

/-- A cleaned table as used by the merge engine: column names plus rows. -/
structure Table where
  names : List String
  rows : List (List Value)
deriving DecidableEq, Repr

/-- Zero-pad a numeral to two digits (for `%m`, `%d` of `strftime`). -/
def pad2 (n : Nat) : String :=
  if n < 10 then "0" ++ toString n else toString n

/-- Zero-pad a numeral to four digits (for `%Y` of `strftime`). -/
def pad4 (n : Nat) : String :=
  if n < 10 then "000" ++ toString n
  else if n < 100 then "00" ++ toString n
  else if n < 1000 then "0" ++ toString n
  else toString n

/-- `strftime('%Y-%m-%d')` on a datetime cell. -/
def fmtDate (y m d : Nat) : String :=
  pad4 y ++ "-" ++ pad2 m ++ "-" ++ pad2 d

/-- Python `str()` as applied cell-wise by `df[col].astype(str)` on an
object-dtype column: strings stay themselves, numbers render in decimal,
a datetime object renders as `'YYYY-MM-DD 00:00:00'`, and a missing value
(`float('nan')`) renders as the literal string `'nan'`. -/
def astypeStr (v : Value) : Value :=
  match v with
  | .vstr s => .vstr s
  | .vnum n => .vstr (toString n)
  | .vdate y m d => .vstr (fmtDate y m d ++ " 00:00:00")
  | .vnull => .vstr "nan"

/-- Cleaning of one cell given its column's dtype, from the per-column loop of
`read_and_clean_sheet` (app.py lines 23-27): a datetime column is rendered
with `strftime('%Y-%m-%d')` (`NaT` cells yield `NaN`, since
`.dt.strftime` maps `NaT` to `NaN` and the subsequent `.replace('NaT','')`
finds no `'NaT'` string to replace); an object column goes through
`astype(str)`; any other (numeric) column is left untouched. -/
def cleanCell (dt : Dtype) (v : Value) : Value :=
  match dt with
  | .dtDatetime =>
      match v with
      | .vdate y m d => .vstr (fmtDate y m d)
      | w => w
  | .dtObject => astypeStr v
  | .dtNumeric => v

/-- One row of `read_and_clean_sheet`: each cell cleaned according to its
column's dtype. -/
def cleanRow (dts : List Dtype) (r : List Value) : List Value :=
  (dts.zip r).map (fun p => cleanCell p.1 p.2)

/-- `read_and_clean_sheet` (app.py lines 16-29), restricted to its cleaning
logic: column names are kept (already strings in the embedding), datetime
columns are formatted to `'%Y-%m-%d'` strings, object columns go through
`astype(str)`, numeric columns are left as loaded. -/
def read_and_clean_sheet (t : RawTable) : Table :=
  { names := t.names
    rows := t.rows.map (fun r => cleanRow t.dtypes r) }

/-- Index of the first column with the given name, as `df['name']` resolves a
column label. -/
def colIndexNames (ns : List String) (k : String) : Option Nat :=
  match ns with
  | [] => none
  | n :: rest => if n = k then some 0 else (colIndexNames rest k).map (· + 1)

/-- Index of column `k` in table `t`. -/
def colIndex (t : Table) (k : String) : Option Nat :=
  colIndexNames t.names k

/-- The list of cells of column position `i`, top to bottom. -/
def columnAt (rows : List (List Value)) (i : Nat) : List Value :=
  rows.map (fun r => r.getD i .vnull)

/-- The values of column `k` of table `t` (`df[k]`), or `[]` when absent. -/
def keyColumn (k : String) (t : Table) : List Value :=
  match colIndex t k with
  | some i => columnAt t.rows i
  | none => []

/-- Number of occurrences of value `v` in a list of cells. -/
def countVal (v : Value) (l : List Value) : Nat :=
  (l.filter (fun w => decide (w = v))).length

/-- First-occurrence deduplication (the order `pandas` `Series.unique()`
produces), with an accumulator of already-seen values. -/
def dedupFirstAux (seen : List Value) : List Value → List Value
  | [] => []
  | v :: vs =>
      if v ∈ seen then dedupFirstAux seen vs
      else v :: dedupFirstAux (v :: seen) vs

/-- `df[df.duplicated(subset=[k], keep=False)][k].unique()` (app.py lines
131-133 and 272-274): the distinct values of column `k` that occur at least
twice in it, in first-occurrence order. -/
def dupKeyVals (k : String) (t : Table) : List Value :=
  dedupFirstAux []
    ((keyColumn k t).filter (fun v => decide (2 ≤ countVal v (keyColumn k t))))

/-- Python `set.update`: append the values of `xs` not already accumulated. -/
def pyUnion (acc xs : List Value) : List Value :=
  acc ++ xs.filter (fun v => decide (v ∉ acc))

/-- `all_duplicated_keys` of the multi-merge mode (app.py lines 269-276): the
key values duplicated within any of the input tables that carry the key
column (tables without it are skipped by the `if join_key in df.columns`
guard).  The Python code accumulates a `set`; the embedding keeps a
duplicate-free list, so only membership is meaningful. -/
def dupKeysAll (k : String) (ts : List Table) : List Value :=
  ts.foldl (fun acc t => if k ∈ t.names then pyUnion acc (dupKeyVals k t) else acc) []

/-- `df[ns]` column selection: project a table to the named columns, in the
given order (all of `ns` are assumed present, as checked by the caller). -/
def selectCols (t : Table) (ns : List String) : Table :=
  { names := ns
    rows := t.rows.map (fun r =>
      ns.map (fun n =>
        match colIndex t n with
        | some i => r.getD i .vnull
        | none => .vnull)) }

/-- `df[name] = value`: overwrite column `name` with the constant `value` when
it exists, otherwise append it as a new last column. -/
def setConstCol (t : Table) (name : String) (v : Value) : Table :=
  match colIndexNames t.names name with
  | some i => { names := t.names, rows := t.rows.map (fun r => r.set i v) }
  | none => { names := t.names ++ [name], rows := t.rows.map (fun r => r ++ [v]) }

/-- The join types offered by the multi-merge UI (`inner`, `outer`, `left`);
the VLOOKUP mode always uses `left`. -/
inductive How where
  | inner
  | left
  | outer
deriving DecidableEq, Repr

/-- The distinct failure paths of the merge code: the `st.error` for a missing
join key (app.py line 263), the `st.warning` for fewer than two tables (line
265), a pandas `KeyError` for a column label absent from a frame, the pandas
`ValueError` ("You are trying to merge on ... and ... columns") raised when
the two key columns have incompatible dtypes (numeric versus object), and the
pandas `MergeError` raised when suffixing would produce duplicate column
labels (pandas >= 1.5).  The latter three are raised inside the `try` blocks
and surface through the generic `except` handlers (app.py lines 150-151 and
289-290) — an error message and no result table. -/
inductive MergeError where
  | noCommonKey
  | insufficientTables
  | keyNotFound
  | dtypeMismatch
  | duplicateCols
deriving DecidableEq, Repr

/-- Whether a cell can live in a numeric-dtyped pandas column: numbers and
missing values (`NaN`) can, strings (and datetime objects) cannot. -/
def cellNumeric (v : Value) : Bool :=
  match v with
  | .vnum _ => true
  | .vnull => true
  | _ => false

/-- Dtype inference for a column of the embedding: a column all of whose
cells are numbers or `NaN` corresponds to a numeric (int64/float64) pandas
column, any other column to an object-dtyped one.  (A column that is empty
or all-`NaN` is modelled as numeric, pandas' float64 of `NaN`s; a datetime64
column never reaches a join in this program, since `read_and_clean_sheet`
renders it to strings.) -/
def colNumeric (cells : List Value) : Bool :=
  cells.all cellNumeric

/-- `pd.merge(L, R, on=k, how=how)` for a single key column `k`:
* raises `KeyError` when `k` is missing from either frame;
* raises `ValueError` when the two key columns have incompatible dtypes — a
  numeric key column on one side against an object (string) key column on the
  other (`_maybe_coerce_merge_keys`: "You are trying to merge on int64 and
  object columns"); within two object columns, differently-typed Python
  values simply compare unequal and do not match;
* non-key columns occurring on both sides get the default suffixes `_x` / `_y`;
* if the suffixed output labels are not pairwise distinct, pandas raises
  `MergeError` (modelled: the labels of the result must be `Nodup`);
* `left`: one result row per (left row, matching right row) pair, left order
  first, right order within a left row; an unmatched left row yields one row
  padded with `NaN`;
* `inner`: the same without the padded rows;
* `outer` (`sort=False`): the `left` rows followed by the right rows whose key
  value occurs nowhere in the left key column, padded with `NaN` on the left
  block (the key value itself lands in the key column). -/
def merge2 (k : String) (how : How) (L R : Table) : Except MergeError Table :=
  match colIndex L k, colIndex R k with
  | some li, some ri =>
      if colNumeric (columnAt L.rows li) = colNumeric (columnAt R.rows ri) then
        let lNames := L.names.map (fun n => if n ≠ k ∧ n ∈ R.names then n ++ "_x" else n)
        let rNames := (R.names.eraseIdx ri).map (fun n => if n ≠ k ∧ n ∈ L.names then n ++ "_y" else n)
        let outNames := lNames ++ rNames
        if outNames.Nodup then
          let pad := R.names.length - 1
          let block := fun (lr : List Value) =>
            let ms := (R.rows.filter (fun rr => decide (rr.getD ri .vnull = lr.getD li .vnull))).map
              (fun rr => rr.eraseIdx ri)
            match how with
            | .inner => ms.map (fun m => lr ++ m)
            | .left => if ms.isEmpty then [lr ++ List.replicate pad Value.vnull] else ms.map (fun m => lr ++ m)
            | .outer => if ms.isEmpty then [lr ++ List.replicate pad Value.vnull] else ms.map (fun m => lr ++ m)
          let extra :=
            match how with
            | .outer =>
                (R.rows.filter (fun rr =>
                  decide (rr.getD ri .vnull ∉ columnAt L.rows li))).map
                  (fun rr => (List.replicate L.names.length Value.vnull).set li (rr.getD ri .vnull) ++ rr.eraseIdx ri)
            | _ => []
          .ok { names := outNames, rows := (L.rows.map block).flatten ++ extra }
        else .error .duplicateCols
      else .error .dtypeMismatch
  | _, _ => .error .keyNotFound

/-- `merged_df['備註'] = ''` (app.py lines 140 and 282): blank out the remark
column, appending it when absent. -/
def blankRemark (t : Table) : Table :=
  setConstCol t "備註" (.vstr "")

/-- `merged_df.loc[merged_df[k].isin(dups), '備註'] = '一對多關係提醒'`
(app.py lines 141-142 and 283-284): flag the rows whose *current* value in
column `k` belongs to `dups`.  When either column is absent nothing happens
(in the program both are present at this point). -/
def flagRemark (k : String) (dups : List Value) (t : Table) : Table :=
  match colIndex t "備註", colIndex t k with
  | some p, some j =>
      { names := t.names
        rows := t.rows.map (fun r =>
          if r.getD j .vnull ∈ dups then r.set p (.vstr "一對多關係提醒") else r) }
  | _, _ => t

/-- The shared annotation step of both merge modes (app.py lines 138-142 and
280-284): when at least one duplicated key value was detected, blank the
`備註` column and then flag the rows whose key value is duplicated. -/
def annotate (k : String) (dups : List Value) (t : Table) : Table :=
  if dups.isEmpty then t else flagRemark k dups (blankRemark t)

/-- Result of the VLOOKUP mode: the merged table (`final_df`), the duplicated
key values of the right table (`duplication_warning_keys`), and the rows of
the right table whose key has no counterpart in the left table
(`unmatched_df`). -/
structure VlookupResult where
  final : Table
  duplicationWarningKeys : List Value
  unmatched : Table
deriving DecidableEq, Repr

/-- The VLOOKUP merge action (app.py lines 126-148): guard against an empty
key, detect duplicated keys in the right table, project the right table to
`[key] + cols_to_merge` (a pandas `KeyError` if a label is absent), left-join,
annotate, and compute the unmatched right rows. -/
def vlookupMerge (k : String) (cols : List String) (L R : Table) :
    Except MergeError VlookupResult :=
  if k = "" then .error .noCommonKey
  else
    match colIndex R k with
    | none => .error .keyNotFound
    | some ri =>
        if (k :: cols).all (fun c => decide (c ∈ R.names)) then
          let dups := dupKeyVals k R
          match merge2 k .left L (selectCols R (k :: cols)) with
          | .ok m =>
              .ok { final := annotate k dups m
                    duplicationWarningKeys := dups
                    unmatched := { names := R.names
                                   rows := R.rows.filter (fun r =>
                                     decide (r.getD ri .vnull ∉ keyColumn k L)) } }
          | .error e => .error e
        else .error .keyNotFound

/-- Result of the multi-merge (horizontal) mode: the merged table, the
duplicated key values, and the unmatched diagnostics — which this mode resets
to `None` (app.py line 238) and never computes. -/
structure MultiResult where
  final : Table
  duplicationWarningKeys : List Value
  unmatched : Option Table
deriving DecidableEq, Repr

/-- The horizontal multi-merge action (app.py lines 262-284): an error when no
key was provided, a warning (no result) when fewer than two tables were read,
otherwise duplicate detection over all inputs followed by
`reduce(lambda l, r: pd.merge(l, r, on=key, how=how), tables)` and the
annotation step.  `unmatched` stays `none`: the mode only resets
`st.session_state.unmatched_df` to `None`. -/
def multiMerge (k : String) (how : How) (ts : List Table) :
    Except MergeError MultiResult :=
  if k = "" then .error .noCommonKey
  else if ts.length < 2 then .error .insufficientTables
  else
    match ts with
    | [] => .error .insufficientTables
    | t0 :: rest =>
        let dups := dupKeysAll k ts
        match rest.foldlM (merge2 k how) t0 with
        | .ok m =>
            .ok { final := annotate k dups m
                  duplicationWarningKeys := dups
                  unmatched := none }
        | .error e => .error e

/-- Union of column names in first-seen order, as `pd.concat` (with the
default `join='outer'`, `sort=False`) aligns frames with unequal columns. -/
def unionNames (ts : List Table) : List String :=
  ts.foldl (fun acc t => acc ++ t.names.filter (fun n => decide (n ∉ acc))) []

/-- Reindex one row of table `t` to the column list `ns`: cells of columns `t`
lacks become `NaN`. -/
def reindexRow (ns : List String) (t : Table) (r : List Value) : List Value :=
  ns.map (fun n =>
    match colIndex t n with
    | some i => r.getD i .vnull
    | none => .vnull)

/-- `pd.concat(all_dfs_to_merge, ignore_index=True)` (app.py line 260):
vertical stacking over the union of the column sets, missing cells padded
with `NaN`, rows in input order. -/
def concatTables (ts : List Table) : Table :=
  { names := unionNames ts
    rows := (ts.map (fun t => t.rows.map (fun r => reindexRow (unionNames ts) t r))).flatten }

/-- The optional source tagging of the vertical mode (app.py lines 248-250):
`df['來源檔案'] = filename; df['來源工作表'] = sheet_name`. -/
def tagSource (filename sheetname : String) (t : Table) : Table :=
  setConstCol (setConstCol t "來源檔案" (.vstr filename)) "來源工作表" (.vstr sheetname)

/-- A table is well-formed when every row has exactly one cell per column. -/
def Table.wf (t : Table) : Prop :=
  ∀ r ∈ t.rows, r.length = t.names.length

/-! ### Helper lemmas about column lookup -/

theorem colIndexNames_getElem {ns : List String} {k : String} {j : Nat}
    (h : colIndexNames ns k = some j) : ns[j]? = some k := by
  induction ns generalizing j with
  | nil => simp [colIndexNames] at h
  | cons n rest ih =>
      by_cases hn : n = k
      · simp [colIndexNames, hn] at h
        subst h; simp [hn]
      · simp [colIndexNames, hn] at h
        obtain ⟨j', hj', rfl⟩ := h
        simpa using ih hj'

theorem colIndexNames_lt {ns : List String} {k : String} {j : Nat}
    (h : colIndexNames ns k = some j) : j < ns.length := by
  have := colIndexNames_getElem h
  exact (List.getElem?_eq_some.mp this).1

theorem colIndexNames_mem {ns : List String} {k : String} {j : Nat}
    (h : colIndexNames ns k = some j) : k ∈ ns := by
  have := colIndexNames_getElem h
  exact List.getElem?_mem this

theorem colIndexNames_eq_none {ns : List String} {k : String}
    (h : k ∉ ns) : colIndexNames ns k = none := by
  induction ns with
  | nil => rfl
  | cons n rest ih =>
      simp only [List.mem_cons, not_or] at h
      have hn : n ≠ k := fun he => h.1 he.symm
      simp [colIndexNames, hn, ih h.2]

theorem colIndexNames_append_left {ns ms : List String} {k : String} {j : Nat}
    (h : colIndexNames ns k = some j) : colIndexNames (ns ++ ms) k = some j := by
  induction ns generalizing j with
  | nil => simp [colIndexNames] at h
  | cons n rest ih =>
      by_cases hn : n = k
      · simp [colIndexNames, hn] at h
        subst h; simp [colIndexNames, hn]
      · simp [colIndexNames, hn] at h
        obtain ⟨j', hj', rfl⟩ := h
        simp [colIndexNames, hn, ih hj']

theorem colIndexNames_append_self {ns : List String} {k : String}
    (h : k ∉ ns) : colIndexNames (ns ++ [k]) k = some ns.length := by
  induction ns with
  | nil => simp [colIndexNames]
  | cons n rest ih =>
      simp only [List.mem_cons, not_or] at h
      have hn : n ≠ k := fun he => h.1 he.symm
      simp [colIndexNames, hn, ih h.2]

theorem colIndexNames_of_nodup {ns : List String} {k : String} {j : Nat}
    (hnd : ns.Nodup) (hj : ns[j]? = some k) : colIndexNames ns k = some j := by
  induction ns generalizing j with
  | nil => simp at hj
  | cons n rest ih =>
      cases j with
      | zero =>
          simp at hj
          simp [colIndexNames, hj]
      | succ j' =>
          simp at hj
          have hk : k ∈ rest := List.getElem?_mem hj
          have hn : n ≠ k := fun he => (List.nodup_cons.mp hnd).1 (he ▸ hk)
          simp [colIndexNames, hn, ih (List.nodup_cons.mp hnd).2 hj]

/-! ### Helper lemmas about `List.getD` -/

theorem getD_append_left {l l' : List Value} {i : Nat} (h : i < l.length) :
    (l ++ l').getD i .vnull = l.getD i .vnull := by
  simp [List.getD_eq_getElem?_getD, List.getElem?_append_left h]

theorem getD_append_self {l : List Value} {v : Value} :
    (l ++ [v]).getD l.length .vnull = v := by
  simp [List.getD_eq_getElem?_getD, List.getElem?_append_right (Nat.le_refl _)]

theorem getD_set_ne {l : List Value} {i j : Nat} {a : Value} (h : i ≠ j) :
    (l.set i a).getD j .vnull = l.getD j .vnull := by
  simp [List.getD_eq_getElem?_getD, List.getElem?_set_ne h]

theorem getD_set_self {l : List Value} {i : Nat} {a : Value} (h : i < l.length) :
    (l.set i a).getD i .vnull = a := by
  simp [List.getD_eq_getElem?_getD, List.getElem?_set_self h]

theorem cleanRow_getD {dts : List Dtype} {r : List Value} {i : Nat}
    (h1 : i < dts.length) (h2 : i < r.length) :
    (cleanRow dts r).getD i .vnull
      = cleanCell (dts.getD i .dtNumeric) (r.getD i .vnull) := by
  induction dts generalizing r i with
  | nil => exact absurd h1 (by simp)
  | cons dt dts ih =>
      cases r with
      | nil => exact absurd h2 (by simp)
      | cons c cs =>
          cases i with
          | zero => simp [cleanRow]
          | succ i' =>
              have := ih (r := cs) (i := i') (Nat.lt_of_succ_lt_succ h1) (Nat.lt_of_succ_lt_succ h2)
              simpa [cleanRow] using this

theorem cleanRow_length {dts : List Dtype} {r : List Value}
    (h : r.length = dts.length) : (cleanRow dts r).length = r.length := by
  simp [cleanRow, List.length_zip, h]

/-! ### Helper lemmas about `countVal` and duplicate detection -/

theorem length_filter_eq_map {γ : Type} (g : γ → Value) (v : Value) (l : List γ) :
    (List.filter (fun w => decide (w = v)) (l.map g)).length
      = (l.filter (fun x => decide (g x = v))).length := by
  induction l with
  | nil => rfl
  | cons x l ih =>
      by_cases h : g x = v
      · simp only [List.map_cons, List.filter_cons, h]
        simp [ih]
      · simp only [List.map_cons, List.filter_cons]
        simp [h, ih]

theorem countVal_columnAt {rows : List (List Value)} {i : Nat} {v : Value} :
    countVal v (columnAt rows i)
      = (rows.filter (fun r => decide (r.getD i .vnull = v))).length :=
  length_filter_eq_map (fun (r : List Value) => r.getD i .vnull) v rows

theorem countVal_pos_of_two_le {l : List Value} {v : Value}
    (h : 2 ≤ countVal v l) : v ∈ l := by
  by_contra hv
  have : l.filter (fun w => decide (w = v)) = [] := by
    refine List.filter_eq_nil_iff.mpr ?_
    intro w hw
    simp only [decide_eq_true_iff]
    intro he; exact hv (he ▸ hw)
  simp [countVal, this] at h

theorem countVal_le_map_astypeStr {l : List Value} :
    countVal .vnull l ≤ countVal (.vstr "nan") (l.map astypeStr) := by
  induction l with
  | nil => simp [countVal]
  | cons w l ih =>
      by_cases h : w = Value.vnull
      · subst h
        simp only [countVal, List.map_cons, List.filter_cons] at *
        simp only [astypeStr]
        simpa using Nat.succ_le_succ ih
      · simp only [countVal, List.map_cons, List.filter_cons] at *
        by_cases h2 : astypeStr w = .vstr "nan"
        · simp [h, h2]
          exact Nat.le_succ_of_le ih
        · simp [h, h2]
          exact ih

theorem mem_dedupFirstAux {l seen : List Value} {v : Value} :
    v ∈ dedupFirstAux seen l ↔ v ∈ l ∧ v ∉ seen := by
  induction l generalizing seen with
  | nil => simp [dedupFirstAux]
  | cons w l ih =>
      by_cases hw : w ∈ seen
      · simp only [dedupFirstAux, if_pos hw, ih, List.mem_cons]
        constructor
        · rintro ⟨h1, h2⟩; exact ⟨Or.inr h1, h2⟩
        · rintro ⟨h1 | h1, h2⟩
          · exact absurd (h1 ▸ hw) h2
          · exact ⟨h1, h2⟩
      · simp only [dedupFirstAux, if_neg hw, List.mem_cons, ih, List.mem_cons, not_or]
        constructor
        · rintro (rfl | ⟨h1, h2, h3⟩)
          · exact ⟨Or.inl rfl, hw⟩
          · exact ⟨Or.inr h1, h3⟩
        · rintro ⟨rfl | h1, h2⟩
          · exact Or.inl rfl
          · by_cases hv : v = w
            · exact Or.inl hv
            · exact Or.inr ⟨h1, hv, h2⟩

theorem mem_dupKeyVals {k : String} {t : Table} {v : Value} :
    v ∈ dupKeyVals k t ↔ 2 ≤ countVal v (keyColumn k t) := by
  simp only [dupKeyVals, mem_dedupFirstAux, List.mem_filter, decide_eq_true_iff,
    List.not_mem_nil, not_false_iff, and_true]
  constructor
  · rintro ⟨_, h⟩; exact h
  · intro h; exact ⟨countVal_pos_of_two_le h, h⟩

theorem mem_pyUnion {acc xs : List Value} {v : Value} :
    v ∈ pyUnion acc xs ↔ v ∈ acc ∨ v ∈ xs := by
  simp only [pyUnion, List.mem_append, List.mem_filter, decide_eq_true_iff]
  constructor
  · rintro (h | ⟨h, _⟩)
    · exact Or.inl h
    · exact Or.inr h
  · rintro (h | h)
    · exact Or.inl h
    · by_cases ha : v ∈ acc
      · exact Or.inl ha
      · exact Or.inr ⟨h, ha⟩

theorem mem_dupKeysAll {k : String} {ts : List Table} {v : Value} :
    v ∈ dupKeysAll k ts ↔ ∃ t ∈ ts, k ∈ t.names ∧ v ∈ dupKeyVals k t := by
  have aux : ∀ (ts : List Table) (acc : List Value),
      v ∈ ts.foldl (fun acc t => if k ∈ t.names then pyUnion acc (dupKeyVals k t) else acc) acc
        ↔ v ∈ acc ∨ ∃ t ∈ ts, k ∈ t.names ∧ v ∈ dupKeyVals k t := by
    intro ts
    induction ts with
    | nil => simp
    | cons t ts ih =>
        intro acc
        by_cases hk : k ∈ t.names
        · simp only [List.foldl_cons, if_pos hk, ih, mem_pyUnion, List.mem_cons]
          constructor
          · rintro ((h | h) | ⟨u, hu, h1, h2⟩)
            · exact Or.inl h
            · exact Or.inr ⟨t, Or.inl rfl, hk, h⟩
            · exact Or.inr ⟨u, Or.inr hu, h1, h2⟩
          · rintro (h | ⟨u, (rfl | hu), h1, h2⟩)
            · exact Or.inl (Or.inl h)
            · exact Or.inl (Or.inr h2)
            · exact Or.inr ⟨u, hu, h1, h2⟩
        · simp only [List.foldl_cons, if_neg hk, ih, List.mem_cons]
          constructor
          · rintro (h | ⟨u, hu, h1, h2⟩)
            · exact Or.inl h
            · exact Or.inr ⟨u, Or.inr hu, h1, h2⟩
          · rintro (h | ⟨u, (rfl | hu), h1, h2⟩)
            · exact Or.inl h
            · exact absurd h1 hk
            · exact Or.inr ⟨u, hu, h1, h2⟩
  simpa using aux ts []

/-! ### Structural lemmas about `merge2` -/

theorem merge2_ok_nodup {k : String} {how : How} {L R m : Table}
    (hok : merge2 k how L R = .ok m) : m.names.Nodup := by
  unfold merge2 at hok
  cases hLi : colIndex L k with
  | none => rw [hLi] at hok; cases hRi : colIndex R k <;> rw [hRi] at hok <;> simp at hok
  | some li =>
      rw [hLi] at hok
      cases hRi : colIndex R k with
      | none => rw [hRi] at hok; simp at hok
      | some ri =>
          rw [hRi] at hok
          simp only [] at hok
          split at hok
          · split at hok
            · rename_i hnd
              cases hok
              exact hnd
            · simp at hok
          · simp at hok

theorem merge2_ok_keyMem {k : String} {how : How} {L R m : Table}
    (hok : merge2 k how L R = .ok m) : k ∈ L.names ∧ k ∈ R.names := by
  unfold merge2 at hok
  cases hLi : colIndex L k with
  | none => rw [hLi] at hok; cases hRi : colIndex R k <;> rw [hRi] at hok <;> simp at hok
  | some li =>
      rw [hLi] at hok
      cases hRi : colIndex R k with
      | none => rw [hRi] at hok; simp at hok
      | some ri =>
          exact ⟨colIndexNames_mem hLi, colIndexNames_mem hRi⟩

theorem merge2_left_eq {k : String} {L R m : Table} {li ri : Nat}
    (hli : colIndex L k = some li) (hri : colIndex R k = some ri)
    (hok : merge2 k .left L R = .ok m) :
    m.names = (L.names.map (fun n => if n ≠ k ∧ n ∈ R.names then n ++ "_x" else n))
        ++ ((R.names.eraseIdx ri).map (fun n => if n ≠ k ∧ n ∈ L.names then n ++ "_y" else n))
      ∧ m.rows = (L.rows.map (fun lr =>
          if ((R.rows.filter (fun rr =>
                decide (rr.getD ri .vnull = lr.getD li .vnull))).map
                  (fun rr => rr.eraseIdx ri)).isEmpty
          then [lr ++ List.replicate (R.names.length - 1) Value.vnull]
          else ((R.rows.filter (fun rr =>
                decide (rr.getD ri .vnull = lr.getD li .vnull))).map
                  (fun rr => rr.eraseIdx ri)).map (fun mr => lr ++ mr))).flatten := by
  unfold merge2 at hok
  rw [hli, hri] at hok
  simp only [] at hok
  split at hok
  · split at hok
    · cases hok
      exact ⟨rfl, by simp⟩
    · simp at hok
  · simp at hok

/-! ### Structural lemmas about the annotation step -/

theorem colIndexNames_isSome_of_mem {ns : List String} {k : String}
    (h : k ∈ ns) : ∃ j, colIndexNames ns k = some j := by
  induction ns with
  | nil => simp at h
  | cons n rest ih =>
      by_cases hn : n = k
      · exact ⟨0, by simp [colIndexNames, hn]⟩
      · have hk : k ∈ rest := by
          rcases List.mem_cons.mp h with h1 | h1
          · exact absurd h1.symm hn
          · exact h1
        obtain ⟨j, hj⟩ := ih hk
        exact ⟨j + 1, by simp [colIndexNames, hn, hj]⟩

theorem setConstCol_names {t : Table} {name : String} {v : Value} :
    (setConstCol t name v).names
      = if name ∈ t.names then t.names else t.names ++ [name] := by
  unfold setConstCol
  cases h : colIndexNames t.names name with
  | none =>
      have : name ∉ t.names := fun hm => by
        obtain ⟨j, hj⟩ := colIndexNames_isSome_of_mem hm
        rw [hj] at h; cases h
      simp [this]
  | some i => simp [colIndexNames_mem h]

theorem setConstCol_rows_length {t : Table} {name : String} {v : Value} :
    (setConstCol t name v).rows.length = t.rows.length := by
  unfold setConstCol
  cases h : colIndexNames t.names name <;> simp

theorem flagRemark_names {k : String} {dups : List Value} {t : Table} :
    (flagRemark k dups t).names = t.names := by
  unfold flagRemark
  cases h1 : colIndex t "備註" <;> cases h2 : colIndex t k <;> simp

theorem flagRemark_rows_length {k : String} {dups : List Value} {t : Table} :
    (flagRemark k dups t).rows.length = t.rows.length := by
  unfold flagRemark
  cases h1 : colIndex t "備註" <;> cases h2 : colIndex t k <;> simp

theorem annotate_rows_length {k : String} {dups : List Value} {t : Table} :
    (annotate k dups t).rows.length = t.rows.length := by
  unfold annotate
  split
  · rfl
  · rw [flagRemark_rows_length]
    exact setConstCol_rows_length

theorem annotate_names {k : String} {dups : List Value} {t : Table}
    (hne : dups ≠ []) :
    (annotate k dups t).names
      = if "備註" ∈ t.names then t.names else t.names ++ ["備註"] := by
  unfold annotate
  rw [if_neg (by simpa [List.isEmpty_iff] using hne)]
  rw [flagRemark_names]
  exact setConstCol_names

theorem annotate_names_of_empty {k : String} {t : Table} :
    annotate k [] t = t := rfl

theorem annotate_nodup {k : String} {dups : List Value} {t : Table}
    (h : t.names.Nodup) : (annotate k dups t).names.Nodup := by
  by_cases hne : dups = []
  · subst hne; rw [annotate_names_of_empty]; exact h
  · rw [annotate_names hne]
    by_cases hb : "備註" ∈ t.names
    · simpa [hb] using h
    · rw [if_neg hb]
      rw [List.nodup_append]
      exact ⟨h, List.nodup_singleton _, fun a ha hb2 => hb (by
        rcases List.mem_singleton.mp hb2 with rfl
        exact ha)⟩

theorem getD_map_rows {F : List Value → List Value} {rows : List (List Value)}
    {n : Nat} (h : n < rows.length) :
    (rows.map F).getD n [] = F (rows.getD n []) := by
  rw [List.getD_eq_getElem?_getD, List.getD_eq_getElem?_getD, List.getElem?_map,
    List.getElem?_eq_getElem h]
  simp

theorem blankRemark_some {t : Table} {p : Nat}
    (hB : colIndexNames t.names "備註" = some p) :
    blankRemark t
      = { names := t.names, rows := t.rows.map (fun r => r.set p (Value.vstr "")) } := by
  unfold blankRemark setConstCol
  rw [hB]

theorem blankRemark_none {t : Table}
    (hB : colIndexNames t.names "備註" = none) :
    blankRemark t
      = { names := t.names ++ ["備註"], rows := t.rows.map (fun r => r ++ [Value.vstr ""]) } := by
  unfold blankRemark setConstCol
  rw [hB]

theorem flagRemark_eq {k : String} {dups : List Value} {t : Table} {p j : Nat}
    (hp : colIndex t "備註" = some p) (hj : colIndex t k = some j) :
    flagRemark k dups t
      = { names := t.names
          rows := t.rows.map (fun r =>
            if r.getD j .vnull ∈ dups then r.set p (.vstr "一對多關係提醒") else r) } := by
  unfold flagRemark
  rw [hp, hj]

/-- The annotation step never touches a column other than `備註`: for a
well-formed table whose key column is not itself named `備註`, the key
column keeps its values. -/
theorem annotate_columnAt {k : String} {dups : List Value} {t : Table} {j : Nat}
    (hwf : t.wf) (hk : k ≠ "備註") (hj : colIndex t k = some j) :
    columnAt (annotate k dups t).rows j = columnAt t.rows j := by
  by_cases hne : dups = []
  · subst hne; rw [annotate_names_of_empty]
  · have hjk : t.names[j]? = some k := colIndexNames_getElem hj
    have hjlt : j < t.names.length := colIndexNames_lt hj
    unfold annotate
    rw [if_neg (by simpa [List.isEmpty_iff] using hne)]
    cases hB : colIndexNames t.names "備註" with
    | some p =>
        have hpj : p ≠ j := by
          intro he
          have h2 := colIndexNames_getElem hB
          rw [he, hjk] at h2
          exact hk (by cases h2; rfl)
        have hp2 : colIndex (blankRemark t) "備註" = some p := by
          rw [blankRemark_some hB]; exact hB
        have hj2 : colIndex (blankRemark t) k = some j := by
          rw [blankRemark_some hB]; exact hj
        rw [flagRemark_eq hp2 hj2, blankRemark_some hB]
        simp only [columnAt, List.map_map]
        refine List.map_congr_left ?_
        intro r _
        simp only [Function.comp]
        rw [getD_set_ne hpj]
        split
        · rw [getD_set_ne hpj, getD_set_ne hpj]
        · rw [getD_set_ne hpj]
    | none =>
        have hb : "備註" ∉ t.names := fun hm => by
          obtain ⟨q, hq⟩ := colIndexNames_isSome_of_mem hm
          rw [hq] at hB; cases hB
        have hp2 : colIndex (blankRemark t) "備註" = some t.names.length := by
          rw [blankRemark_none hB]; exact colIndexNames_append_self hb
        have hj2 : colIndex (blankRemark t) k = some j := by
          rw [blankRemark_none hB]; exact colIndexNames_append_left hj
        rw [flagRemark_eq hp2 hj2, blankRemark_none hB]
        simp only [columnAt, List.map_map]
        refine List.map_congr_left ?_
        intro r hr
        have hrlen : j < r.length := by rw [hwf r hr]; exact hjlt
        have hplen : t.names.length ≠ j := Nat.ne_of_gt hjlt
        simp only [Function.comp]
        rw [getD_append_left hrlen]
        split
        · rw [getD_set_ne hplen, getD_append_left hrlen]
        · rw [getD_append_left hrlen]

/-! ### Lemmas about `selectCols` -/

theorem selectCols_wf {t : Table} {ns : List String} : (selectCols t ns).wf := by
  intro r hr
  simp only [selectCols, List.mem_map] at hr
  obtain ⟨r0, _, rfl⟩ := hr
  simp [selectCols]

theorem selectCols_colIndex_head {t : Table} {k : String} {cols : List String} :
    colIndex (selectCols t (k :: cols)) k = some 0 := by
  simp [selectCols, colIndex, colIndexNames]

theorem selectCols_columnAt_zero {t : Table} {k : String} {cols : List String} {ri : Nat}
    (hri : colIndex t k = some ri) :
    columnAt (selectCols t (k :: cols)).rows 0 = columnAt t.rows ri := by
  simp only [selectCols, columnAt, List.map_map]
  refine List.map_congr_left ?_
  intro r hr
  simp only [Function.comp, List.map_cons]
  rw [show colIndex t k = some ri from hri]
  rfl

/-! ### Row-level lemmas about the left join -/

theorem ifBlock_length {β : Type} (G : List β) {γ : Type} (f : β → γ) (x : γ) :
    (if G.isEmpty then [x] else G.map f).length = max 1 G.length := by
  cases G with
  | nil => simp
  | cons a G =>
      rw [if_neg (by simp)]
      simp only [List.length_map, List.length_cons]
      omega

theorem ifBlock_keyvals (G : List (List Value)) (lr : List Value) (li pad : Nat)
    (h : li < lr.length) :
    List.map (fun r => r.getD li Value.vnull)
      (if G.isEmpty then [lr ++ List.replicate pad Value.vnull]
       else G.map (fun mr => lr ++ mr))
      = List.replicate (max 1 G.length) (lr.getD li Value.vnull) := by
  cases G with
  | nil =>
      rw [if_pos (show ([] : List (List Value)).isEmpty = true from rfl)]
      simp only [List.map_cons, List.map_nil]
      rw [getD_append_left h]
      have h1 : max 1 ([] : List (List Value)).length = 1 := by simp
      rw [h1]
      rfl
  | cons g G =>
      rw [if_neg (by simp)]
      rw [List.map_map]
      have h2 : ∀ mr ∈ (g :: G),
          ((fun r => r.getD li Value.vnull) ∘ (fun mr => lr ++ mr)) mr
            = lr.getD li Value.vnull := by
        intro mr _
        simp only [Function.comp]
        exact getD_append_left h
      rw [List.map_congr_left h2, List.map_const']
      have h3 : max 1 (g :: G).length = (g :: G).length := by
        simp only [List.length_cons]
        omega
      rw [h3]

theorem merge2_left_rows_length {k : String} {L R m : Table} {li ri : Nat}
    (hli : colIndex L k = some li) (hri : colIndex R k = some ri)
    (hok : merge2 k .left L R = .ok m) :
    m.rows.length
      = ((columnAt L.rows li).map
          (fun v => max 1 (countVal v (columnAt R.rows ri)))).sum := by
  obtain ⟨-, hrows⟩ := merge2_left_eq hli hri hok
  rw [hrows, List.length_flatten]
  conv_lhs => rw [List.map_map]
  conv_rhs => rw [show columnAt L.rows li
      = L.rows.map (fun r => r.getD li Value.vnull) from rfl, List.map_map]
  refine congrArg List.sum (List.map_congr_left ?_)
  intro lr _
  simp only [Function.comp]
  rw [show countVal (lr.getD li Value.vnull) (columnAt R.rows ri)
      = (List.filter (fun rr => decide (rr.getD ri Value.vnull = lr.getD li Value.vnull)) R.rows).length
    from countVal_columnAt]
  refine (ifBlock_length _ _ _).trans ?_
  rw [List.length_map]

theorem merge2_left_keyColumn {k : String} {L R m : Table} {li ri : Nat}
    (hli : colIndex L k = some li) (hri : colIndex R k = some ri)
    (hok : merge2 k .left L R = .ok m) (hwfL : L.wf) :
    columnAt m.rows li
      = ((columnAt L.rows li).map
          (fun v => List.replicate (max 1 (countVal v (columnAt R.rows ri))) v)).flatten := by
  obtain ⟨-, hrows⟩ := merge2_left_eq hli hri hok
  have hlilt : li < L.names.length := colIndexNames_lt hli
  rw [hrows]
  conv_lhs => rw [show columnAt ((L.rows.map (fun lr =>
          if ((R.rows.filter (fun rr =>
                decide (rr.getD ri .vnull = lr.getD li .vnull))).map
                  (fun rr => rr.eraseIdx ri)).isEmpty
          then [lr ++ List.replicate (R.names.length - 1) Value.vnull]
          else ((R.rows.filter (fun rr =>
                decide (rr.getD ri .vnull = lr.getD li .vnull))).map
                  (fun rr => rr.eraseIdx ri)).map (fun mr => lr ++ mr))).flatten) li
      = ((L.rows.map (fun lr =>
          if ((R.rows.filter (fun rr =>
                decide (rr.getD ri .vnull = lr.getD li .vnull))).map
                  (fun rr => rr.eraseIdx ri)).isEmpty
          then [lr ++ List.replicate (R.names.length - 1) Value.vnull]
          else ((R.rows.filter (fun rr =>
                decide (rr.getD ri .vnull = lr.getD li .vnull))).map
                  (fun rr => rr.eraseIdx ri)).map (fun mr => lr ++ mr))).flatten).map
        (fun r => r.getD li Value.vnull) from rfl]
  rw [List.map_flatten]
  conv_lhs => rw [List.map_map]
  conv_rhs => rw [show columnAt L.rows li
      = L.rows.map (fun r => r.getD li Value.vnull) from rfl, List.map_map]
  refine congrArg List.flatten (List.map_congr_left ?_)
  intro lr hlr
  have hlen : li < lr.length := by rw [hwfL lr hlr]; exact hlilt
  simp only [Function.comp]
  rw [show countVal (lr.getD li Value.vnull) (columnAt R.rows ri)
      = (List.filter (fun rr => decide (rr.getD ri Value.vnull = lr.getD li Value.vnull)) R.rows).length
    from countVal_columnAt]
  refine (ifBlock_keyvals _ lr li _ hlen).trans ?_
  rw [List.length_map]

theorem foldlM_merge2_cons {k : String} {how : How} {r : Table} {rest : List Table}
    {init m : Table}
    (h : (r :: rest).foldlM (merge2 k how) init = .ok m) :
    ∃ m1, merge2 k how init r = .ok m1 ∧ rest.foldlM (merge2 k how) m1 = .ok m := by
  rw [List.foldlM_cons] at h
  cases hm : merge2 k how init r with
  | error e => rw [hm] at h; exact absurd h (by simp [Bind.bind, Except.bind])
  | ok m1 =>
      rw [hm] at h
      exact ⟨m1, rfl, h⟩

theorem foldlM_merge2_mem {k : String} {how : How} :
    ∀ {rest : List Table} {init m : Table},
      rest.foldlM (merge2 k how) init = .ok m → ∀ t ∈ rest, k ∈ t.names := by
  intro rest
  induction rest with
  | nil => intro init m _ t ht; simp at ht
  | cons r rest ih =>
      intro init m h t ht
      obtain ⟨m1, hm1, hrest⟩ := foldlM_merge2_cons h
      rcases List.mem_cons.mp ht with rfl | ht2
      · exact (merge2_ok_keyMem hm1).2
      · exact ih hrest t ht2

theorem foldlM_merge2_init_mem {k : String} {how : How} {r : Table} {rest : List Table}
    {init m : Table}
    (h : (r :: rest).foldlM (merge2 k how) init = .ok m) : k ∈ init.names := by
  obtain ⟨m1, hm1, -⟩ := foldlM_merge2_cons h
  exact (merge2_ok_keyMem hm1).1

theorem foldlM_merge2_nodup {k : String} {how : How} :
    ∀ {rest : List Table} {init m : Table}, rest ≠ [] →
      rest.foldlM (merge2 k how) init = .ok m → m.names.Nodup := by
  intro rest
  induction rest with
  | nil => intro init m hne _; exact absurd rfl hne
  | cons r rest ih =>
      intro init m _ h
      obtain ⟨m1, hm1, hrest⟩ := foldlM_merge2_cons h
      cases rest with
      | nil =>
          rw [List.foldlM_nil] at hrest
          cases hrest
          exact merge2_ok_nodup hm1
      | cons r2 rest2 => exact ih (by simp) hrest

theorem keyColumn_eq {k : String} {t : Table} {i : Nat}
    (h : colIndex t k = some i) : keyColumn k t = columnAt t.rows i := by
  unfold keyColumn
  rw [h]

theorem annotate_colIndex {k : String} {dups : List Value} {t : Table}
    {q : String} {j : Nat} (h : colIndex t q = some j) :
    colIndex (annotate k dups t) q = some j := by
  by_cases hne : dups = []
  · subst hne; rw [annotate_names_of_empty]; exact h
  · unfold colIndex
    rw [annotate_names hne]
    by_cases hb : "備註" ∈ t.names
    · rw [if_pos hb]; exact h
    · rw [if_neg hb]; exact colIndexNames_append_left h

/-- In the result of a left `merge2`, the key keeps the position it had in the
left table. -/
theorem merge2_left_key_colIndex {k : String} {L R m : Table} {li ri : Nat}
    (hli : colIndex L k = some li) (hri : colIndex R k = some ri)
    (hok : merge2 k .left L R = .ok m) : colIndex m k = some li := by
  obtain ⟨hnames, -⟩ := merge2_left_eq hli hri hok
  have hnd : m.names.Nodup := merge2_ok_nodup hok
  have hLk : L.names[li]? = some k := colIndexNames_getElem hli
  have hlt : li < L.names.length := colIndexNames_lt hli
  have hmk : m.names[li]? = some k := by
    rw [hnames]
    rw [List.getElem?_append_left (by simpa using hlt)]
    rw [List.getElem?_map, hLk]
    simp
  exact colIndexNames_of_nodup hnd hmk

/-! ### Destructuring the two merge actions -/

theorem vlookupMerge_ok_eq {k : String} {cols : List String} {L R : Table}
    {res : VlookupResult} (hok : vlookupMerge k cols L R = .ok res) :
    k ≠ "" ∧ ∃ ri, colIndex R k = some ri
      ∧ ∃ m, merge2 k .left L (selectCols R (k :: cols)) = .ok m
      ∧ res = { final := annotate k (dupKeyVals k R) m
                duplicationWarningKeys := dupKeyVals k R
                unmatched := { names := R.names
                               rows := R.rows.filter (fun r =>
                                 decide (r.getD ri .vnull ∉ keyColumn k L)) } } := by
  unfold vlookupMerge at hok
  split at hok
  · simp at hok
  · rename_i hkne
    refine ⟨hkne, ?_⟩
    cases hri : colIndex R k with
    | none => rw [hri] at hok; simp at hok
    | some ri =>
        rw [hri] at hok
        simp only [] at hok
        split at hok
        · cases hm : merge2 k .left L (selectCols R (k :: cols)) with
          | error e => rw [hm] at hok; simp at hok
          | ok m =>
              rw [hm] at hok
              simp only [Except.ok.injEq] at hok
              exact ⟨ri, rfl, m, rfl, hok.symm⟩
        · simp at hok

theorem multiMerge_ok_eq {k : String} {how : How} {ts : List Table}
    {res : MultiResult} (hok : multiMerge k how ts = .ok res) :
    k ≠ "" ∧ 2 ≤ ts.length
      ∧ ∃ t0 rest, ts = t0 :: rest
      ∧ ∃ m, rest.foldlM (merge2 k how) t0 = .ok m
      ∧ res = { final := annotate k (dupKeysAll k ts) m
                duplicationWarningKeys := dupKeysAll k ts
                unmatched := none } := by
  unfold multiMerge at hok
  split at hok
  · simp at hok
  · rename_i hkne
    split at hok
    · simp at hok
    · rename_i hlen
      refine ⟨hkne, by omega, ?_⟩
      cases hts : ts with
      | nil => rw [hts] at hok; simp at hok
      | cons t0 rest =>
          rw [hts] at hok
          simp only [] at hok
          cases hm : rest.foldlM (merge2 k how) t0 with
          | error e => rw [hm] at hok; simp at hok
          | ok m =>
              rw [hm] at hok
              simp only [Except.ok.injEq] at hok
              exact ⟨t0, rest, rfl, m, hm, hok.symm⟩

/-! ### Concatenation lemmas -/

theorem concatTables_rows_length {ts : List Table} :
    (concatTables ts).rows.length = (ts.map (fun t => t.rows.length)).sum := by
  unfold concatTables
  rw [List.length_flatten, List.map_map]
  refine congrArg List.sum (List.map_congr_left ?_)
  intro t _
  simp [Function.comp]

theorem unionNames_nodup {ts : List Table}
    (h : ∀ t ∈ ts, t.names.Nodup) : (unionNames ts).Nodup := by
  have aux : ∀ (ts : List Table) (acc : List String), acc.Nodup →
      (∀ t ∈ ts, t.names.Nodup) →
      (ts.foldl (fun acc t => acc ++ t.names.filter (fun n => decide (n ∉ acc))) acc).Nodup := by
    intro ts
    induction ts with
    | nil => intro acc hacc _; exact hacc
    | cons t ts ih =>
        intro acc hacc hts
        rw [List.foldl_cons]
        refine ih _ ?_ (fun u hu => hts u (List.mem_cons_of_mem t hu))
        rw [List.nodup_append]
        refine ⟨hacc, List.Nodup.filter _ (hts t (List.mem_cons_self t ts)), ?_⟩
        intro a ha hafilter
        have := (List.mem_filter.mp hafilter).2
        rw [decide_eq_true_iff] at this
        exact this ha
  exact aux ts [] List.nodup_nil h

theorem merge2_left_wf {k : String} {L R m : Table} {li ri : Nat}
    (hli : colIndex L k = some li) (hri : colIndex R k = some ri)
    (hok : merge2 k .left L R = .ok m) (hwfL : L.wf) (hwfR : R.wf) : m.wf := by
  obtain ⟨hnames, hrows⟩ := merge2_left_eq hli hri hok
  have hrilt : ri < R.names.length := colIndexNames_lt hri
  have hnameslen : m.names.length = L.names.length + (R.names.length - 1) := by
    rw [hnames]
    simp [List.length_eraseIdx, hrilt]
  intro r hr
  rw [hrows] at hr
  rw [List.mem_flatten] at hr
  obtain ⟨blk, hblk, hrblk⟩ := hr
  rw [List.mem_map] at hblk
  obtain ⟨lr, hlr, rfl⟩ := hblk
  have hlrlen : lr.length = L.names.length := hwfL lr hlr
  split at hrblk
  · rcases List.mem_singleton.mp hrblk with rfl
    rw [hnameslen]
    simp [hlrlen]
  · rw [List.mem_map] at hrblk
    obtain ⟨mr, hmr, rfl⟩ := hrblk
    rw [List.mem_map] at hmr
    obtain ⟨rr, hrr, rfl⟩ := hmr
    have hrrlen : rr.length = R.names.length := hwfR rr (List.mem_filter.mp hrr).1
    rw [hnameslen]
    simp [List.length_eraseIdx, hrrlen, hrilt, hlrlen]

/-! ## The claims

Each claim of the specification is settled by one theorem below (with a
closed counterexample theorem when the claim, as stated, fails on the code).
-/

/-- Claim C5: after any merge operation (multi-table key join or
concatenation), all column names of the result table are pairwise distinct.
For the key join this holds because `pd.merge` suffixes colliding non-key
columns and (pandas >= 1.5) raises `MergeError` instead of emitting duplicate
labels, so every produced result has `Nodup` names; for `pd.concat` the
result columns are the first-seen-order union of the (duplicate-free) input
column lists. -/
theorem C5_unique_columns :
    (∀ (k : String) (how : How) (ts : List Table) (res : MultiResult),
        multiMerge k how ts = .ok res → res.final.names.Nodup)
    ∧ (∀ ts : List Table, (∀ t ∈ ts, t.names.Nodup) → (concatTables ts).names.Nodup) := by
  constructor
  · intro k how ts res hok
    obtain ⟨-, hlen, t0, rest, rfl, m, hfold, rfl⟩ := multiMerge_ok_eq hok
    have hrestne : rest ≠ [] := by
      intro h
      subst h
      simp at hlen
    exact annotate_nodup (foldlM_merge2_nodup hrestne hfold)
  · intro ts h
    exact unionNames_nodup h

/-- Witness for C5 at concrete inputs: a two-table inner join and a two-table
concatenation, both with distinct result column names. -/
theorem C5_unique_columns_witness :
    ({ final := ⟨["k"], [[Value.vstr "a"]]⟩
       duplicationWarningKeys := []
       unmatched := none } : MultiResult).final.names.Nodup
    ∧ (concatTables [⟨["a"], []⟩, ⟨["b"], []⟩]).names.Nodup :=
  ⟨C5_unique_columns.1 "k" .inner [⟨["k"], [[Value.vstr "a"]]⟩, ⟨["k"], [[Value.vstr "a"]]⟩] _ rfl,
   C5_unique_columns.2 [⟨["a"], []⟩, ⟨["b"], []⟩] (by decide)⟩

/-- Claim C6: the row count of `pd.concat(ts, ignore_index=True)` equals the
sum of the row counts of the inputs (stated, as the spec does, for non-empty
input lists; the code guards against the empty list separately). -/
theorem C6_concat_rowcount (ts : List Table) (_hne : ts ≠ []) :
    (concatTables ts).rows.length = (ts.map (fun t => t.rows.length)).sum :=
  concatTables_rows_length

/-- Witness for C6 at a concrete pair of tables with 1 and 2 rows. -/
theorem C6_concat_rowcount_witness :
    (concatTables [⟨["a"], [[Value.vnum 1]]⟩,
                   ⟨["b"], [[Value.vnum 2], [Value.vnum 3]]⟩]).rows.length
      = (([⟨["a"], [[Value.vnum 1]]⟩,
           ⟨["b"], [[Value.vnum 2], [Value.vnum 3]]⟩] : List Table).map
          (fun t => t.rows.length)).sum :=
  C6_concat_rowcount _ (by simp)

/-- Counterexample to claim C8: when the key column is absent from one of the
tables, the multi-merge does not fail through the `NoCommonKeyError` path
(the `st.error` of app.py line 263, reserved for an empty key); it fails with
the pandas `KeyError` surfaced by the generic `except` handler. -/
theorem C8_counterexample :
    multiMerge "k" .inner [⟨["k"], []⟩, ⟨["j"], []⟩]
        = .error .keyNotFound
      ∧ MergeError.keyNotFound ≠ MergeError.noCommonKey :=
  ⟨rfl, by decide⟩

/-- Claim C8 (amended): the multi-merge fails with `NoCommonKeyError` when the
key is empty, with `InsufficientTablesError` when fewer than two tables are
supplied (and the key is non-empty, since the empty-key check runs first),
and a missing key column surfaces as a propagated `KeyError`; a successful
merge guarantees that the key was non-empty, at least two tables were given
and every table carries the key column — no default key is ever
substituted. -/
theorem C8_error_paths :
    (∀ (how : How) (ts : List Table), multiMerge "" how ts = .error .noCommonKey)
    ∧ (∀ (k : String) (how : How) (ts : List Table), k ≠ "" → ts.length < 2 →
        multiMerge k how ts = .error .insufficientTables)
    ∧ (∀ (k : String) (how : How) (ts : List Table) (res : MultiResult),
        multiMerge k how ts = .ok res →
          k ≠ "" ∧ 2 ≤ ts.length ∧ ∀ t ∈ ts, k ∈ t.names) := by
  refine ⟨?_, ?_, ?_⟩
  · intro how ts
    unfold multiMerge
    rw [if_pos rfl]
  · intro k how ts hk hlen
    unfold multiMerge
    rw [if_neg hk, if_pos hlen]
  · intro k how ts res hok
    obtain ⟨h1, h2, t0, rest, rfl, m, hm, -⟩ := multiMerge_ok_eq hok
    refine ⟨h1, h2, ?_⟩
    intro t ht
    rcases List.mem_cons.mp ht with rfl | ht2
    · cases rest with
      | nil => simp at h2
      | cons r rest2 => exact foldlM_merge2_init_mem hm
    · exact foldlM_merge2_mem hm t ht2

/-- Witness for C8 at concrete inputs: an empty key, a single table, and a
successful two-table merge whose inputs all carry the key. -/
theorem C8_error_paths_witness :
    multiMerge "" .inner [] = .error .noCommonKey
    ∧ multiMerge "k" .inner [⟨["k"], []⟩] = .error .insufficientTables
    ∧ ("k" ≠ "" ∧ 2 ≤ ([⟨["k"], []⟩, ⟨["k"], []⟩] : List Table).length
        ∧ ∀ t ∈ ([⟨["k"], []⟩, ⟨["k"], []⟩] : List Table), "k" ∈ t.names) :=
  ⟨C8_error_paths.1 .inner [],
   C8_error_paths.2.1 "k" .inner [⟨["k"], []⟩] (by decide) (by simp),
   C8_error_paths.2.2 "k" .inner [⟨["k"], []⟩, ⟨["k"], []⟩]
     { final := ⟨["k"], []⟩, duplicationWarningKeys := [], unmatched := none } rfl⟩

/-- Counterexample to claim C1, using the specification's own worked example
(primary `[{id:1,name:A},{id:2,name:B}]`, secondary
`[{id:1,dept:X},{id:1,dept:Y},{id:3,dept:Z}]`, lookup on `id` selecting
`dept`): the code performs a plain left join with no deduplication of the
secondary table, so the duplicated key `1` fans out and the result has 3
rows while the primary has 2. -/
theorem C1_counterexample :
    vlookupMerge "id" ["dept"]
        ⟨["id", "name"], [[.vstr "1", .vstr "A"], [.vstr "2", .vstr "B"]]⟩
        ⟨["id", "dept"], [[.vstr "1", .vstr "X"], [.vstr "1", .vstr "Y"], [.vstr "3", .vstr "Z"]]⟩
      = .ok { final := ⟨["id", "name", "dept", "備註"],
                [[.vstr "1", .vstr "A", .vstr "X", .vstr "一對多關係提醒"],
                 [.vstr "1", .vstr "A", .vstr "Y", .vstr "一對多關係提醒"],
                 [.vstr "2", .vstr "B", .vnull, .vstr ""]]⟩
              duplicationWarningKeys := [.vstr "1"]
              unmatched := ⟨["id", "dept"], [[.vstr "3", .vstr "Z"]]⟩ }
    ∧ (⟨["id", "name"], [[.vstr "1", .vstr "A"], [.vstr "2", .vstr "B"]]⟩ : Table).rows.length = 2
    ∧ (3 : Nat) ≠ 2 :=
  ⟨rfl, rfl, by decide⟩

/-- Claim C1 (amended): the lookup result's row count is not the primary row
count but the sum, over the primary key column, of `max 1 (number of matching
secondary rows)` — the row count equals the primary's only when no primary
key value is duplicated in the secondary table. -/
theorem C1_lookup_rowcount (k : String) (cols : List String) (L R : Table)
    (res : VlookupResult) (hok : vlookupMerge k cols L R = .ok res) :
    res.final.rows.length
      = ((keyColumn k L).map (fun v => max 1 (countVal v (keyColumn k R)))).sum := by
  obtain ⟨-, ri, hri, m, hm, rfl⟩ := vlookupMerge_ok_eq hok
  simp only []
  rw [annotate_rows_length]
  obtain ⟨hkL, -⟩ := merge2_ok_keyMem hm
  obtain ⟨li, hli⟩ := colIndexNames_isSome_of_mem hkL
  rw [merge2_left_rows_length hli selectCols_colIndex_head hm]
  rw [selectCols_columnAt_zero hri]
  rw [keyColumn_eq hli, keyColumn_eq hri]

/-- Witness for C1 (amended) at a primary row whose key matches two secondary
rows: the result has `max 1 2 = 2` rows. -/
theorem C1_lookup_rowcount_witness :
    ({ final := ⟨["k", "v", "備註"],
         [[Value.vstr "a", Value.vstr "x", Value.vstr "一對多關係提醒"],
          [Value.vstr "a", Value.vstr "y", Value.vstr "一對多關係提醒"]]⟩
       duplicationWarningKeys := [Value.vstr "a"]
       unmatched := ⟨["k", "v"], []⟩ } : VlookupResult).final.rows.length
      = ((keyColumn "k" ⟨["k"], [[Value.vstr "a"]]⟩).map
          (fun v => max 1 (countVal v
            (keyColumn "k" ⟨["k", "v"],
              [[Value.vstr "a", Value.vstr "x"], [Value.vstr "a", Value.vstr "y"]]⟩)))).sum :=
  C1_lookup_rowcount "k" ["v"] _ _ _ rfl

/-- Counterexample to claim C2: the code never deduplicates the secondary
table.  With primary `[{id:1}]` and secondary `[{id:1,dept:X},{id:1,dept:Y}]`
the lookup returns two rows for the single primary row, the second of which
carries `Y` — the selected value of the *second* matching secondary row, not
of the first occurrence only. -/
theorem C2_counterexample :
    vlookupMerge "id" ["dept"]
        ⟨["id"], [[.vstr "1"]]⟩
        ⟨["id", "dept"], [[.vstr "1", .vstr "X"], [.vstr "1", .vstr "Y"]]⟩
      = .ok { final := ⟨["id", "dept", "備註"],
                [[.vstr "1", .vstr "X", .vstr "一對多關係提醒"],
                 [.vstr "1", .vstr "Y", .vstr "一對多關係提醒"]]⟩
              duplicationWarningKeys := [.vstr "1"]
              unmatched := ⟨["id", "dept"], []⟩ }
    ∧ [Value.vstr "1", Value.vstr "Y", Value.vstr "一對多關係提醒"]
        ∈ ([[Value.vstr "1", Value.vstr "X", Value.vstr "一對多關係提醒"],
            [Value.vstr "1", Value.vstr "Y", Value.vstr "一對多關係提醒"]] : List (List Value)) :=
  ⟨rfl, by decide⟩

/-- Claim C2 (amended): the lookup does not deduplicate the secondary table;
it performs a plain left join, so the key column of the result repeats every
primary key value once per matching secondary row (`max 1` of the match
count), reflecting every matching secondary row rather than only the first
occurrence. -/
theorem C2_lookup_fanout (k : String) (cols : List String) (L R : Table)
    (res : VlookupResult) (hwfL : L.wf) (hk : k ≠ "備註")
    (hok : vlookupMerge k cols L R = .ok res) :
    keyColumn k res.final
      = ((keyColumn k L).map
          (fun v => List.replicate (max 1 (countVal v (keyColumn k R))) v)).flatten := by
  obtain ⟨-, ri, hri, m, hm, rfl⟩ := vlookupMerge_ok_eq hok
  simp only []
  obtain ⟨hkL, -⟩ := merge2_ok_keyMem hm
  obtain ⟨li, hli⟩ := colIndexNames_isSome_of_mem hkL
  have hmli : colIndex m k = some li :=
    merge2_left_key_colIndex hli selectCols_colIndex_head hm
  have hwfm : m.wf :=
    merge2_left_wf hli selectCols_colIndex_head hm hwfL selectCols_wf
  rw [keyColumn_eq (annotate_colIndex hmli)]
  rw [annotate_columnAt hwfm hk hmli]
  rw [merge2_left_keyColumn hli selectCols_colIndex_head hm hwfL]
  rw [selectCols_columnAt_zero hri]
  rw [keyColumn_eq hli, keyColumn_eq hri]

/-- Witness for C2 (amended): with primary key column `[a]` and secondary key
column `[a, a]`, the result key column is `[a, a]` — the value repeated per
matching secondary row. -/
theorem C2_lookup_fanout_witness :
    keyColumn "k" ((⟨⟨["k", "v", "備註"],
         [[Value.vstr "a", Value.vstr "x", Value.vstr "一對多關係提醒"],
          [Value.vstr "a", Value.vstr "y", Value.vstr "一對多關係提醒"]]⟩,
       [Value.vstr "a"],
       ⟨["k", "v"], []⟩⟩ : VlookupResult)).final
      = ((keyColumn "k" ⟨["k"], [[Value.vstr "a"]]⟩).map
          (fun v => List.replicate (max 1 (countVal v
            (keyColumn "k" ⟨["k", "v"],
              [[Value.vstr "a", Value.vstr "x"], [Value.vstr "a", Value.vstr "y"]]⟩))) v)).flatten :=
  C2_lookup_fanout "k" ["v"] _ _ _
    (by
      intro r hr
      rcases List.mem_singleton.mp hr with rfl
      rfl)
    (by decide) rfl

/-- Counterexample to claim C3: load-time cleaning converts only datetime and
object-typed columns to strings, so a purely numeric key column keeps its
numeric values (first conjunct) — the keys are *not* normalized to a common
textual form.  Joining that numeric-keyed table with a table whose key is
text then raises pandas' dtype-incompatibility `ValueError` (caught by the
generic handler at app.py line 289): the merge errors with no result table,
so the numeric key `1` and the textual key `"1"` are never made to compare
equal. -/
theorem C3_counterexample :
    read_and_clean_sheet ⟨["k"], [.dtNumeric], [[.vnum 1]]⟩
        = ⟨["k"], [[.vnum 1]]⟩
    ∧ multiMerge "k" .inner [⟨["k"], [[.vnum 1]]⟩, ⟨["k"], [[.vstr "1"]]⟩]
        = .error .dtypeMismatch
    ∧ Value.vnum 1 ≠ Value.vstr "1" :=
  ⟨rfl, rfl, by decide⟩

/-- Claim C3 (amended): `read_and_clean_sheet` normalizes to string form only
the datetime-typed and object-typed columns; a numeric column — including a
numeric key column — is left exactly as loaded, and no further key
normalization happens at join time.  A numeric-vs-text key representation
mismatch between two tables is therefore *not* reconciled: the pairwise merge
of a numeric-dtyped key column against an object-dtyped one fails with
pandas' dtype-incompatibility error (no result table) rather than aligning
the keys. -/
theorem C3_key_normalization (t : RawTable) (i : Nat)
    (hwf : ∀ r ∈ t.rows, r.length = t.dtypes.length) (hilen : i < t.dtypes.length) :
    (t.dtypes.getD i .dtNumeric = .dtObject →
      ∀ v ∈ columnAt (read_and_clean_sheet t).rows i, ∃ s, v = .vstr s)
    ∧ (t.dtypes.getD i .dtNumeric = .dtNumeric →
      columnAt (read_and_clean_sheet t).rows i = columnAt t.rows i)
    ∧ (∀ (k : String) (how : How) (L R : Table) (li ri : Nat),
        colIndex L k = some li → colIndex R k = some ri →
        colNumeric (columnAt L.rows li) ≠ colNumeric (columnAt R.rows ri) →
        merge2 k how L R = .error .dtypeMismatch) := by
  refine ⟨?_, ?_, ?_⟩
  · intro hdt v hv
    simp only [read_and_clean_sheet, columnAt, List.map_map, List.mem_map] at hv
    obtain ⟨r, hr, rfl⟩ := hv
    simp only [Function.comp]
    rw [cleanRow_getD hilen (by rw [hwf r hr]; exact hilen), hdt]
    cases h : r.getD i .vnull <;> simp [cleanCell, astypeStr]
  · intro hdt
    simp only [read_and_clean_sheet, columnAt, List.map_map]
    refine List.map_congr_left ?_
    intro r hr
    simp only [Function.comp]
    rw [cleanRow_getD hilen (by rw [hwf r hr]; exact hilen), hdt]
    rfl
  · intro k how L R li ri hli hri hmm
    unfold merge2
    rw [hli, hri]
    simp only []
    rw [if_neg hmm]

/-- Witness for C3 (amended): applying the theorem at a numeric-keyed table
against a text-keyed table shows the merge erroring out with the dtype
mismatch instead of aligning the keys. -/
theorem C3_key_normalization_witness :
    merge2 "k" .inner ⟨["k"], [[.vnum 1]]⟩ ⟨["k"], [[.vstr "1"]]⟩
      = .error .dtypeMismatch :=
  (C3_key_normalization ⟨["k"], [.dtNumeric], [[.vnum 1]]⟩ 0
      (by
        intro r hr
        rcases List.mem_singleton.mp hr with rfl
        rfl)
      (by decide)).2.2 "k" .inner
    ⟨["k"], [[.vnum 1]]⟩ ⟨["k"], [[.vstr "1"]]⟩ 0 0 rfl rfl (by decide)

/-- Counterexample to claim C4: the multi-table key join computes no unmatched
set at all — `st.session_state.unmatched_df` is reset to `None` (app.py line
238) and never assigned in this mode.  Here the second table's row with key
`"b"` has no counterpart in the first table, yet the returned diagnostics
hold no unmatched rows. -/
theorem C4_counterexample :
    multiMerge "k" .inner [⟨["k"], [[.vstr "a"]]⟩, ⟨["k"], [[.vstr "b"]]⟩]
        = .ok ⟨⟨["k"], []⟩, [], none⟩
    ∧ Value.vstr "b" ∉ keyColumn "k" ⟨["k"], [[.vstr "a"]]⟩ :=
  ⟨rfl, by decide⟩

/-- Claim C4 (amended): for the VLOOKUP mode the unmatched diagnostics are
exact — they contain precisely the secondary rows whose key value has no
counterpart in the primary key column, with no false positives and no
omissions; the multi-table key join, however, returns no unmatched set
(`none`), computing nothing of the kind. -/
theorem C4_unmatched_exactness (k : String) (cols : List String) (L R : Table)
    (res : VlookupResult) (si : Nat) (hsi : colIndex R k = some si)
    (hok : vlookupMerge k cols L R = .ok res) :
    ((∀ r ∈ res.unmatched.rows, r ∈ R.rows ∧ r.getD si .vnull ∉ keyColumn k L)
      ∧ (∀ r ∈ R.rows, r.getD si .vnull ∉ keyColumn k L → r ∈ res.unmatched.rows))
    ∧ (∀ (how : How) (ts : List Table) (mres : MultiResult),
        multiMerge k how ts = .ok mres → mres.unmatched = none) := by
  obtain ⟨-, ri, hri, m, hm, rfl⟩ := vlookupMerge_ok_eq hok
  rw [hsi] at hri
  cases hri
  constructor
  · constructor
    · intro r hr
      simp only [] at hr
      obtain ⟨h1, h2⟩ := List.mem_filter.mp hr
      exact ⟨h1, of_decide_eq_true h2⟩
    · intro r hr hkey
      simp only []
      exact List.mem_filter.mpr ⟨hr, decide_eq_true hkey⟩
  · intro how ts mres hok2
    obtain ⟨-, -, t0, rest, -, m2, -, rfl⟩ := multiMerge_ok_eq hok2
    rfl

/-- Witness for C4 (amended): primary keys `{1, 2}` against secondary keys
`{1, 3}` — the secondary row with key `3` is unmatched and is reported. -/
theorem C4_unmatched_exactness_witness :
    ((∀ r ∈ ((⟨⟨["id", "d"],
          [[Value.vstr "1", Value.vstr "X"]]⟩,
        [], ⟨["id", "d"], [[Value.vstr "3", Value.vstr "Z"]]⟩⟩ : VlookupResult)).unmatched.rows,
        r ∈ (⟨["id", "d"], [[Value.vstr "1", Value.vstr "X"], [Value.vstr "3", Value.vstr "Z"]]⟩ : Table).rows
          ∧ r.getD 0 .vnull ∉ keyColumn "id" ⟨["id"], [[Value.vstr "1"]]⟩)
      ∧ (∀ r ∈ (⟨["id", "d"], [[Value.vstr "1", Value.vstr "X"], [Value.vstr "3", Value.vstr "Z"]]⟩ : Table).rows,
          r.getD 0 .vnull ∉ keyColumn "id" ⟨["id"], [[Value.vstr "1"]]⟩ →
            r ∈ ((⟨⟨["id", "d"],
                [[Value.vstr "1", Value.vstr "X"]]⟩,
              [], ⟨["id", "d"], [[Value.vstr "3", Value.vstr "Z"]]⟩⟩ : VlookupResult)).unmatched.rows))
    ∧ (∀ (how : How) (ts : List Table) (mres : MultiResult),
        multiMerge "id" how ts = .ok mres → mres.unmatched = none) :=
  C4_unmatched_exactness "id" ["d"] _ _ _ 0 rfl rfl

/-- Counterexample to claim C7: the duplicate-key detection of the multi-merge
(app.py lines 269-276) loops over *all* input tables, the first (accumulator)
one included.  With the key `"a"` duplicated only within the first table and
unique in the joined-in second table, the diagnostics still record it —
contradicting a detection defined only over the joined-in tables. -/
theorem C7_counterexample :
    multiMerge "k" .inner [⟨["k"], [[.vstr "a"], [.vstr "a"]]⟩, ⟨["k"], [[.vstr "a"]]⟩]
        = .ok ⟨⟨["k", "備註"],
            [[.vstr "a", .vstr "一對多關係提醒"], [.vstr "a", .vstr "一對多關係提醒"]]⟩,
            [.vstr "a"], none⟩
    ∧ countVal (Value.vstr "a") (keyColumn "k" ⟨["k"], [[.vstr "a"]]⟩) = 1 :=
  ⟨rfl, by decide⟩

/-- Claim C7 (amended): the duplicate-key diagnostics of the multi-merge
record exactly the key values occurring at least twice within *some* input
table carrying the key column — the first (accumulator) table included —
detected upfront, before the pairwise joins. -/
theorem C7_dup_diagnostics (k : String) (how : How) (ts : List Table)
    (res : MultiResult) (hok : multiMerge k how ts = .ok res) (v : Value) :
    v ∈ res.duplicationWarningKeys
      ↔ ∃ t ∈ ts, k ∈ t.names ∧ 2 ≤ countVal v (keyColumn k t) := by
  obtain ⟨-, -, t0, rest, rfl, m, hm, rfl⟩ := multiMerge_ok_eq hok
  simp only []
  rw [mem_dupKeysAll]
  simp only [mem_dupKeyVals]

/-- Witness for C7 (amended): the key value `"a"`, duplicated in the first of
the two joined tables, is recorded in the diagnostics. -/
theorem C7_dup_diagnostics_witness :
    Value.vstr "a" ∈ ((⟨⟨["k", "備註"],
        [[Value.vstr "a", Value.vstr "一對多關係提醒"],
         [Value.vstr "a", Value.vstr "一對多關係提醒"]]⟩,
        [Value.vstr "a"], none⟩ : MultiResult)).duplicationWarningKeys :=
  (C7_dup_diagnostics "k" .inner
      [⟨["k"], [[.vstr "a"], [.vstr "a"]]⟩, ⟨["k"], [[.vstr "a"]]⟩] _ rfl _).mpr
    ⟨⟨["k"], [[.vstr "a"], [.vstr "a"]]⟩, by simp, by simp, by decide⟩

/-- Claim C9: in an object-typed (text) column, `astype(str)` maps a missing
cell to the literal string `'nan'`; the cleaned key column is exactly the
cell-wise `str()` image of the loaded one, so two rows with missing key cells
carry equal key values (`'nan'`), are counted together by duplicate-key
detection (at least two missing cells put `'nan'` in the duplicate set), and
compare equal where the joins compare key cells. -/
theorem C9_object_nan (k : String) (t : RawTable) (i : Nat)
    (hwf : ∀ r ∈ t.rows, r.length = t.dtypes.length)
    (hk : colIndexNames t.names k = some i)
    (hilen : i < t.dtypes.length)
    (hdt : t.dtypes.getD i .dtNumeric = .dtObject) :
    astypeStr .vnull = .vstr "nan"
    ∧ keyColumn k (read_and_clean_sheet t) = (columnAt t.rows i).map astypeStr
    ∧ (2 ≤ countVal .vnull (columnAt t.rows i) →
        .vstr "nan" ∈ dupKeyVals k (read_and_clean_sheet t))
    ∧ (∀ (u : RawTable) (j : Nat), (∀ q ∈ u.rows, q.length = u.dtypes.length) →
        j < u.dtypes.length → u.dtypes.getD j .dtNumeric = .dtObject →
        ∀ r ∈ t.rows, ∀ q ∈ u.rows,
          r.getD i .vnull = .vnull → q.getD j .vnull = .vnull →
          (cleanRow t.dtypes r).getD i .vnull = (cleanRow u.dtypes q).getD j .vnull) := by
  have hcol : keyColumn k (read_and_clean_sheet t) = (columnAt t.rows i).map astypeStr := by
    have hci : colIndex (read_and_clean_sheet t) k = some i := hk
    rw [keyColumn_eq hci]
    simp only [read_and_clean_sheet, columnAt, List.map_map]
    refine List.map_congr_left ?_
    intro r hr
    simp only [Function.comp]
    rw [cleanRow_getD hilen (by rw [hwf r hr]; exact hilen), hdt]
    rfl
  refine ⟨rfl, hcol, ?_, ?_⟩
  · intro h2
    rw [mem_dupKeyVals, hcol]
    exact le_trans h2 countVal_le_map_astypeStr
  · intro u j hwfu hjlen hdtu r hr q hq hrn hqn
    rw [cleanRow_getD hilen (by rw [hwf r hr]; exact hilen), hdt, hrn]
    rw [cleanRow_getD hjlen (by rw [hwfu q hq]; exact hjlen), hdtu, hqn]

/-- Witness for C9 at a one-column object table with two missing key cells:
the shared `'nan'` value lands in the duplicate-key set. -/
theorem C9_object_nan_witness :
    Value.vstr "nan"
      ∈ dupKeyVals "k" (read_and_clean_sheet ⟨["k"], [.dtObject], [[.vnull], [.vnull]]⟩) :=
  (C9_object_nan "k" ⟨["k"], [.dtObject], [[.vnull], [.vnull]]⟩ 0
      (by
        intro r hr
        rcases List.mem_cons.mp hr with rfl | hr2
        · rfl
        · rcases List.mem_singleton.mp hr2 with rfl
          rfl)
      rfl (by decide) rfl).2.2.1 (by decide)

/-- Counterexample to claim C10: when the join key column is itself named
`備註`, the annotation's blanking step (`merged_df['備註'] = ''`) erases the
key values *before* the flagging condition reads them, so rows whose
(original) key value is in the duplicate set end up with `''` instead of
`'一對多關係提醒'` — and the key data is destroyed. -/
theorem C10_counterexample :
    vlookupMerge "備註" [] ⟨["備註"], [[.vstr "a"]]⟩ ⟨["備註"], [[.vstr "a"], [.vstr "a"]]⟩
        = .ok ⟨⟨["備註"], [[.vstr ""], [.vstr ""]]⟩, [.vstr "a"], ⟨["備註"], []⟩⟩
    ∧ Value.vstr "a" ∈ [Value.vstr "a"]
    ∧ Value.vstr "" ≠ Value.vstr "一對多關係提醒" :=
  ⟨rfl, by decide, by decide⟩

theorem annotate_rows_eq_some {k : String} {dups : List Value} {t : Table} {p j : Nat}
    (hne : dups ≠ []) (hB : colIndexNames t.names "備註" = some p)
    (hj : colIndex t k = some j) :
    (annotate k dups t).rows
      = (t.rows.map (fun r => r.set p (Value.vstr ""))).map
          (fun r => if r.getD j .vnull ∈ dups
                    then r.set p (.vstr "一對多關係提醒") else r) := by
  have hp2 : colIndex (blankRemark t) "備註" = some p := by
    rw [blankRemark_some hB]; exact hB
  have hj2 : colIndex (blankRemark t) k = some j := by
    rw [blankRemark_some hB]; exact hj
  unfold annotate
  rw [if_neg (by simpa [List.isEmpty_iff] using hne), flagRemark_eq hp2 hj2,
    blankRemark_some hB]

theorem annotate_rows_eq_none {k : String} {dups : List Value} {t : Table} {j : Nat}
    (hne : dups ≠ []) (hB : colIndexNames t.names "備註" = none)
    (hj : colIndex t k = some j) :
    (annotate k dups t).rows
      = (t.rows.map (fun r => r ++ [Value.vstr ""])).map
          (fun r => if r.getD j .vnull ∈ dups
                    then r.set t.names.length (.vstr "一對多關係提醒") else r) := by
  have hb : "備註" ∉ t.names := fun hm => by
    obtain ⟨q, hq⟩ := colIndexNames_isSome_of_mem hm
    rw [hq] at hB; cases hB
  have hp2 : colIndex (blankRemark t) "備註" = some t.names.length := by
    rw [blankRemark_none hB]; exact colIndexNames_append_self hb
  have hj2 : colIndex (blankRemark t) k = some j := by
    rw [blankRemark_none hB]; exact colIndexNames_append_left hj
  unfold annotate
  rw [if_neg (by simpa [List.isEmpty_iff] using hne), flagRemark_eq hp2 hj2,
    blankRemark_none hB]

/-- Claim C10 (amended): the annotation step (shared by both merge modes)
leaves the table unchanged when no duplicate keys were detected; otherwise it
blanks-or-appends the `備註` column and then flags rows by the *current*
value of the key column — which, provided the key column is not itself named
`備註`, is the original key value.  Under that proviso: the `備註` column of
the result holds `'一對多關係提醒'` exactly on rows whose key value is in the
duplicate set and `''` elsewhere (a pre-existing `備註` column is overwritten
unconditionally), and every other column and the row count are unchanged. -/
theorem C10_remark_flagging (k : String) (dups : List Value) (t : Table) (j : Nat)
    (hwf : t.wf) (hk : k ≠ "備註") (hj : colIndex t k = some j) :
    (dups = [] → annotate k dups t = t)
    ∧ (dups ≠ [] →
        (annotate k dups t).names
            = (if "備註" ∈ t.names then t.names else t.names ++ ["備註"])
          ∧ (annotate k dups t).rows.length = t.rows.length
          ∧ ∃ p, colIndexNames (annotate k dups t).names "備註" = some p
              ∧ (∀ n, n < t.rows.length →
                  ((annotate k dups t).rows.getD n []).getD p .vnull
                    = (if (t.rows.getD n []).getD j .vnull ∈ dups
                       then .vstr "一對多關係提醒" else .vstr ""))
              ∧ (∀ n m, m < t.names.length → m ≠ p →
                  ((annotate k dups t).rows.getD n []).getD m .vnull
                    = (t.rows.getD n []).getD m .vnull)) := by
  constructor
  · intro h; subst h; exact annotate_names_of_empty
  · intro hne
    refine ⟨annotate_names hne, annotate_rows_length, ?_⟩
    have hjlt : j < t.names.length := colIndexNames_lt hj
    have hjk : t.names[j]? = some k := colIndexNames_getElem hj
    cases hB : colIndexNames t.names "備註" with
    | some p =>
        have hpj : p ≠ j := by
          intro he
          have h2 := colIndexNames_getElem hB
          rw [he, hjk] at h2
          exact hk (by cases h2; rfl)
        have hplt : p < t.names.length := colIndexNames_lt hB
        have hrows := annotate_rows_eq_some hne hB hj
        refine ⟨p, ?_, ?_, ?_⟩
        · rw [annotate_names hne, if_pos (colIndexNames_mem hB)]
          exact hB
        · intro n hn
          rw [hrows]
          rw [getD_map_rows (by rw [List.length_map]; exact hn), getD_map_rows hn]
          have hrmem : t.rows.getD n [] ∈ t.rows := by
            rw [List.getD_eq_getElem _ _ hn]
            exact List.getElem_mem hn
          have hrlen : (t.rows.getD n []).length = t.names.length := hwf _ hrmem
          rw [getD_set_ne hpj]
          split
          · rw [getD_set_self (by rw [List.length_set, hrlen]; exact hplt)]
          · rw [getD_set_self (by rw [hrlen]; exact hplt)]
        · intro n m hmlt hmp
          by_cases hn : n < t.rows.length
          · rw [hrows]
            rw [getD_map_rows (by rw [List.length_map]; exact hn), getD_map_rows hn]
            have hrmem : t.rows.getD n [] ∈ t.rows := by
              rw [List.getD_eq_getElem _ _ hn]
              exact List.getElem_mem hn
            rw [getD_set_ne hpj]
            split
            · rw [getD_set_ne (Ne.symm hmp), getD_set_ne (Ne.symm hmp)]
            · rw [getD_set_ne (Ne.symm hmp)]
          · have h1 : (annotate k dups t).rows.getD n [] = [] := by
              refine List.getD_eq_default _ _ ?_
              rw [annotate_rows_length]
              omega
            have h2 : t.rows.getD n [] = [] := by
              refine List.getD_eq_default _ _ ?_
              omega
            rw [h1, h2]
    | none =>
        have hb : "備註" ∉ t.names := fun hm => by
          obtain ⟨q, hq⟩ := colIndexNames_isSome_of_mem hm
          rw [hq] at hB; cases hB
        have hrows := annotate_rows_eq_none hne hB hj
        refine ⟨t.names.length, ?_, ?_, ?_⟩
        · rw [annotate_names hne, if_neg hb]
          exact colIndexNames_append_self hb
        · intro n hn
          rw [hrows]
          rw [getD_map_rows (by rw [List.length_map]; exact hn), getD_map_rows hn]
          have hrmem : t.rows.getD n [] ∈ t.rows := by
            rw [List.getD_eq_getElem _ _ hn]
            exact List.getElem_mem hn
          have hrlen : (t.rows.getD n []).length = t.names.length := hwf _ hrmem
          rw [getD_append_left (by rw [hrlen]; exact hjlt)]
          split
          · rw [getD_set_self (by rw [List.length_append, hrlen]; simp)]
          · rw [show t.names.length = (t.rows.getD n []).length from hrlen.symm,
              getD_append_self]
        · intro n m hmlt hmp
          by_cases hn : n < t.rows.length
          · rw [hrows]
            rw [getD_map_rows (by rw [List.length_map]; exact hn), getD_map_rows hn]
            have hrmem : t.rows.getD n [] ∈ t.rows := by
              rw [List.getD_eq_getElem _ _ hn]
              exact List.getElem_mem hn
            have hrlen : (t.rows.getD n []).length = t.names.length := hwf _ hrmem
            have hmr : m < (t.rows.getD n []).length := by rw [hrlen]; exact hmlt
            rw [getD_append_left (by rw [hrlen]; exact hjlt)]
            split
            · rw [getD_set_ne (Ne.symm hmp), getD_append_left hmr]
            · rw [getD_append_left hmr]
          · have h1 : (annotate k dups t).rows.getD n [] = [] := by
              refine List.getD_eq_default _ _ ?_
              rw [annotate_rows_length]
              omega
            have h2 : t.rows.getD n [] = [] := by
              refine List.getD_eq_default _ _ ?_
              omega
            rw [h1, h2]

/-- Witness for C10 (amended) at a two-column table with key `k` (values
`a`, `b`), duplicate set `{a}` and no pre-existing `備註` column. -/
theorem C10_remark_flagging_witness :
    (([Value.vstr "a"] : List Value) = [] →
        annotate "k" [Value.vstr "a"]
          ⟨["k", "v"], [[Value.vstr "a", Value.vstr "x"], [Value.vstr "b", Value.vstr "y"]]⟩
          = ⟨["k", "v"], [[Value.vstr "a", Value.vstr "x"], [Value.vstr "b", Value.vstr "y"]]⟩)
    ∧ (([Value.vstr "a"] : List Value) ≠ [] →
        (annotate "k" [Value.vstr "a"]
            ⟨["k", "v"], [[Value.vstr "a", Value.vstr "x"], [Value.vstr "b", Value.vstr "y"]]⟩).names
            = (if "備註" ∈ (⟨["k", "v"],
                  [[Value.vstr "a", Value.vstr "x"], [Value.vstr "b", Value.vstr "y"]]⟩ : Table).names
               then (⟨["k", "v"],
                  [[Value.vstr "a", Value.vstr "x"], [Value.vstr "b", Value.vstr "y"]]⟩ : Table).names
               else (⟨["k", "v"],
                  [[Value.vstr "a", Value.vstr "x"], [Value.vstr "b", Value.vstr "y"]]⟩ : Table).names ++ ["備註"])
          ∧ (annotate "k" [Value.vstr "a"]
              ⟨["k", "v"], [[Value.vstr "a", Value.vstr "x"], [Value.vstr "b", Value.vstr "y"]]⟩).rows.length
              = (⟨["k", "v"],
                  [[Value.vstr "a", Value.vstr "x"], [Value.vstr "b", Value.vstr "y"]]⟩ : Table).rows.length
          ∧ ∃ p, colIndexNames (annotate "k" [Value.vstr "a"]
                ⟨["k", "v"], [[Value.vstr "a", Value.vstr "x"], [Value.vstr "b", Value.vstr "y"]]⟩).names "備註"
                = some p
              ∧ (∀ n, n < (⟨["k", "v"],
                    [[Value.vstr "a", Value.vstr "x"], [Value.vstr "b", Value.vstr "y"]]⟩ : Table).rows.length →
                  ((annotate "k" [Value.vstr "a"]
                      ⟨["k", "v"], [[Value.vstr "a", Value.vstr "x"], [Value.vstr "b", Value.vstr "y"]]⟩).rows.getD n []).getD p .vnull
                    = (if ((⟨["k", "v"],
                          [[Value.vstr "a", Value.vstr "x"], [Value.vstr "b", Value.vstr "y"]]⟩ : Table).rows.getD n []).getD 0 .vnull
                          ∈ [Value.vstr "a"]
                       then .vstr "一對多關係提醒" else .vstr ""))
              ∧ (∀ n m, m < (⟨["k", "v"],
                    [[Value.vstr "a", Value.vstr "x"], [Value.vstr "b", Value.vstr "y"]]⟩ : Table).names.length → m ≠ p →
                  ((annotate "k" [Value.vstr "a"]
                      ⟨["k", "v"], [[Value.vstr "a", Value.vstr "x"], [Value.vstr "b", Value.vstr "y"]]⟩).rows.getD n []).getD m .vnull
                    = (((⟨["k", "v"],
                        [[Value.vstr "a", Value.vstr "x"], [Value.vstr "b", Value.vstr "y"]]⟩ : Table)).rows.getD n []).getD m .vnull)) :=
  C10_remark_flagging "k" [Value.vstr "a"]
    ⟨["k", "v"], [[Value.vstr "a", Value.vstr "x"], [Value.vstr "b", Value.vstr "y"]]⟩ 0
    (by
      intro r hr
      rcases List.mem_cons.mp hr with rfl | hr2
      · rfl
      · rcases List.mem_singleton.mp hr2 with rfl
        rfl)
    (by decide) rfl

end MergerTool
